import Mathlib

/-!
Shallow embedding of the hybrid movie recommendation engine in
`src/backend/app/recommender/engine.py` (class `MovieRecommender` and the
FastAPI route `get_recommendations`), together with proofs settling the
frozen claims about its specification.

Modelling conventions:
* A `MovieRecommender` instance is a record of its Python attributes.  Each
  attribute that may be unset / `None` is an `Option`.  Notably the attribute
  `ratings_df` is read by `get_collaborative_recommendations` but is never
  assigned by `__init__`, `prepare_content_features` or
  `train_collaborative_model`, so on every state produced by the class's own
  methods it is `none` (reading it raises `AttributeError`).
* Fallible Python code is embedded as `Except PyErr`; the constructors of
  `PyErr` name the Python exception class that the corresponding operation
  raises (`IndexError` from `.index[0]` / `iloc` / numpy indexing on an
  empty selection, `KeyError` from selecting absent DataFrame columns,
  `AttributeError` from reading an unset attribute or predicting with a
  never-fitted surprise model, `TypeError` from subscripting `None`).
* Floating-point numerics (TF-IDF, cosine similarity, SVD) are not modelled
  numerically: similarity scores and predicted ratings are `ℚ`, the
  similarity matrix produced by `prepare_content_features` and the predictor
  produced by fitting the SVD are abstracted as explicit arguments.  All
  claims under verification concern ordering, membership, lengths and
  error behaviour, none of which depend on the numeric values themselves.
* `np.argsort` is modelled as the ascending sort by value with ties in
  ascending index order, which is numpy's observed behaviour on the small
  rows used in the concrete counterexamples; `list.sort` in Python is
  guaranteed stable, which the embedding realises by sorting index-tagged
  elements with an index tie-break.
-/

/-- Python exception kinds raised on the code paths of the recommender. -/
inductive PyErr where
  | indexError
  | keyError
  | attributeError
  | typeError
deriving DecidableEq

/-- One row of the movies DataFrame built by `prepare_content_features` from
the dictionaries passed in by the `/train` route (columns `id`, `title`,
`genres`, `director`, `cast`, `description`; the derived column
`content_features` only feeds the abstracted TF-IDF step). -/
structure MovieRow where
  id : ℕ
  title : String
  genres : String
  director : String
  cast : String
  description : String
deriving DecidableEq

/-- One row of a ratings DataFrame (columns `user_id`, `movie_id`, `rating`). -/
structure RatingRow where
  user_id : ℕ
  movie_id : ℕ
  rating : ℚ
deriving DecidableEq

/-- The attribute state of a `MovieRecommender` instance.

`collaborative_model` is `none` while the SVD object has never been fitted
(surprise's `predict` then raises `AttributeError` because `self.trainset`
is unset) and `some est` once fitted, where `est u m` abstracts
`self.collaborative_model.predict(u, m).est`.

`ratings_df` is the attribute read by `get_collaborative_recommendations`;
no method of the class ever assigns it. -/
structure MovieRecommender where
  movies_df : Option (List MovieRow)
  content_similarity_matrix : Option (List (List ℚ))
  collaborative_model : Option (ℕ → ℕ → ℚ)
  ratings_df : Option (List RatingRow)

/-- `MovieRecommender.__init__`: `content_similarity_matrix = None`,
`movies_df = None`, a fresh (never fitted) SVD, and no `ratings_df`
attribute at all. -/
def initRecommender : MovieRecommender :=
  { movies_df := none
    content_similarity_matrix := none
    collaborative_model := none
    ratings_df := none }

/-- First mutation performed by `prepare_content_features`:
`self.movies_df = pd.DataFrame(movies)` (the `content_features` column
added afterwards only feeds the abstracted vectorizer).  The similarity
matrix attribute is left untouched at this point. -/
def prepareSetMovies (s : MovieRecommender) (movies : List MovieRow) : MovieRecommender :=
  { s with movies_df := some movies }

/-- Second mutation performed by `prepare_content_features`:
`self.content_similarity_matrix = cosine_similarity(tfidf_matrix)`.
The argument `sim` abstracts the cosine-similarity matrix computed from the
TF-IDF vectors (an `N × N` matrix for `N` movies). -/
def prepareSetMatrix (s : MovieRecommender) (sim : List (List ℚ)) : MovieRecommender :=
  { s with content_similarity_matrix := some sim }

/-- `prepare_content_features`, as the sequence of its two attribute
assignments.  `sim` abstracts `cosine_similarity(tfidf.fit_transform(...))`. -/
def prepare_content_features (s : MovieRecommender) (movies : List MovieRow)
    (sim : List (List ℚ)) : MovieRecommender :=
  prepareSetMatrix (prepareSetMovies s movies) sim

/-- `train_collaborative_model`.  `pd.DataFrame([])` has no columns, so for
an empty rating list the column selection
`ratings_df[['user_id', 'movie_id', 'rating']]` raises `KeyError` before any
state is modified.  Otherwise the SVD is fitted on the full trainset; the
numeric result of the fit is abstracted by `svdFit`.  Note that the method
does not assign `self.ratings_df`. -/
def train_collaborative_model (svdFit : List RatingRow → ℕ → ℕ → ℚ)
    (s : MovieRecommender) (ratings : List RatingRow) : Except PyErr MovieRecommender :=
  if ratings.isEmpty then .error .keyError
  else .ok { s with collaborative_model := some (svdFit ratings) }

/-- `self.collaborative_model.predict(u, m).est`: raises `AttributeError`
when the SVD has never been fitted, otherwise returns the estimate. -/
def predictEst (s : MovieRecommender) (u m : ℕ) : Except PyErr ℚ :=
  match s.collaborative_model with
  | none => .error .attributeError
  | some est => .ok (est u m)

/-- Comparator realising `np.argsort` over a similarity row: ascending
value, ties in ascending index order. -/
def argLeB (row : List ℚ) (a b : ℕ) : Bool :=
  decide (row.getD a 0 < row.getD b 0 ∨ (row.getD a 0 = row.getD b 0 ∧ a ≤ b))

/-- `np.argsort(row)`: the indices `0, ..., row.length - 1` sorted by
ascending value, ties in ascending index order. -/
def argsortAsc (row : List ℚ) : List ℕ :=
  (List.range row.length).mergeSort (argLeB row)

/-- `np.argsort(movie_similarities)[::-1][1:n_recommendations+1]`: reverse
into descending order, drop the first entry, keep at most `n`. -/
def contentOrderIndices (row : List ℚ) (n : ℕ) : List ℕ :=
  (((argsortAsc row).reverse).drop 1).take n

/-- `movies_df.iloc[indices]`: select rows by position, `IndexError` on an
out-of-range position. -/
def ilocSelect (movies : List MovieRow) : List ℕ → Option (List MovieRow)
  | [] => some []
  | i :: is =>
    match movies[i]? with
    | none => none
    | some r =>
      match ilocSelect movies is with
      | none => none
      | some rs => some (r :: rs)

/-- `get_content_based_recommendations(movie_id, n_recommendations)`.
Steps, in Python evaluation order:
`self.movies_df[...]` subscripts `None` if never prepared (`TypeError`);
`.index[0]` on the empty selection raises `IndexError` when `movie_id` is
absent; `self.content_similarity_matrix[movie_idx]` subscripts `None` or an
out-of-range row (`TypeError` / `IndexError`); `iloc` raises `IndexError`
for an out-of-range position; finally the `id` column of the selected rows
is returned as a list. -/
def get_content_based_recommendations (s : MovieRecommender) (movie_id : ℕ)
    (n_recommendations : ℕ) : Except PyErr (List ℕ) :=
  match s.movies_df with
  | none => .error .typeError
  | some movies =>
    match movies.findIdx? (fun r => r.id == movie_id) with
    | none => .error .indexError
    | some movie_idx =>
      match s.content_similarity_matrix with
      | none => .error .typeError
      | some sim =>
        match sim[movie_idx]? with
        | none => .error .indexError
        | some row =>
          match ilocSelect movies (contentOrderIndices row n_recommendations) with
          | none => .error .indexError
          | some rows => .ok (rows.map (fun r => r.id))

/-- Comparison used to model `predictions.sort(key=lambda x: x[1],
reverse=True)` on index-tagged pairs: descending second component, ties by
ascending original position (Python's sort is stable and `reverse=True`
does not reverse ties). -/
def ratingSortLe (a b : ℕ × (ℕ × ℚ)) : Bool :=
  decide (b.2.2 < a.2.2 ∨ (a.2.2 = b.2.2 ∧ a.1 ≤ b.1))

/-- Python's stable `list.sort(key=lambda x: x[1], reverse=True)`. -/
def pySortByRatingDesc (l : List (ℕ × ℚ)) : List (ℕ × ℚ) :=
  ((l.enum).mergeSort ratingSortLe).map (fun p => p.2)

/-- `get_collaborative_recommendations(user_id, n_recommendations)`.
Evaluation order: `self.movies_df['id']` (subscripting `None` raises
`TypeError`), then `self.ratings_df` (never assigned by any method: reading
it raises `AttributeError`), then one `predict` call per unrated movie —
which raises `AttributeError` on a never-fitted SVD, unless the unrated
selection is empty, in which case `predict` is never called and the empty
prediction list is sorted and returned. -/
def get_collaborative_recommendations (s : MovieRecommender) (user_id : ℕ)
    (n_recommendations : ℕ) : Except PyErr (List (ℕ × ℚ)) :=
  match s.movies_df with
  | none => .error .typeError
  | some movies =>
    match s.ratings_df with
    | none => .error .attributeError
    | some ratings =>
      let rated := (ratings.filter (fun r => r.user_id == user_id)).map (fun r => r.movie_id)
      let user_unrated := movies.filter (fun m => !(rated.contains m.id))
      match s.collaborative_model with
      | none => if user_unrated.isEmpty then .ok [] else .error .attributeError
      | some est =>
        let predictions := user_unrated.map (fun m => (m.id, est user_id m.id))
        .ok ((pySortByRatingDesc predictions).take n_recommendations)

/-- One acceptance step of the hybrid merge: skip a candidate already in
`seen_movies`, otherwise append it to the result and record it as seen. -/
def pickStep (movie_id : ℕ) (seen acc : List ℕ) : List ℕ × List ℕ :=
  if movie_id ∈ seen then (seen, acc) else (movie_id :: seen, acc ++ [movie_id])

/-- One iteration body of the `while` loop of `get_hybrid_recommendations`:
process the content candidate at cursor `ci` (if any), then the
collaborative candidate at cursor `ki` (if any), threading the
`seen_movies` set and the result list through both conditional blocks. -/
def mergeStep (cr kr : List ℕ) (ci ki : ℕ) (seen acc : List ℕ) : List ℕ × List ℕ :=
  let p1 := if ci < cr.length then pickStep (cr.getD ci 0) seen acc else (seen, acc)
  if ki < kr.length then pickStep (kr.getD ki 0) p1.1 p1.2 else p1

/-- The `while` loop of `get_hybrid_recommendations`: while the result is
shorter than `n` and either candidate list is unexhausted, run the loop
body and advance each cursor that is still in range.  Both conditional
blocks run inside one iteration without re-checking the length bound in
between. -/
def mergeLoop (cr kr : List ℕ) (n : ℕ) (ci ki : ℕ) (seen acc : List ℕ) : List ℕ :=
  if h : acc.length < n ∧ (ci < cr.length ∨ ki < kr.length) then
    mergeLoop cr kr n (if ci < cr.length then ci + 1 else ci)
      (if ki < kr.length then ki + 1 else ki)
      (mergeStep cr kr ci ki seen acc).1 (mergeStep cr kr ci ki seen acc).2
  else acc
termination_by (cr.length - ci) + (kr.length - ki)
decreasing_by
  rcases h with ⟨-, h2⟩
  split <;> split <;> omega

/-- The content phase of `get_hybrid_recommendations`: for each of the last
up-to-3 entries of `recently_viewed` (Python slice `[-3:]`), extend
`content_recs` with that seed's similarity query at `n // 2`.  A raised
exception propagates — the loop has no try/except. -/
def contentCandidates (s : MovieRecommender) (recently_viewed : List ℕ)
    (n : ℕ) : Except PyErr (List ℕ) :=
  (recently_viewed.drop (recently_viewed.length - 3)).foldlM (fun acc movie_id => do
    let recs ← get_content_based_recommendations s movie_id (n / 2)
    pure (acc ++ recs)) ([] : List ℕ)

/-- The candidate-gathering phase of `get_hybrid_recommendations`: the
content candidates, then the ids of the collaborative candidates (queried
with `n // 2`). -/
def hybridCandidates (s : MovieRecommender) (user_id : ℕ) (recently_viewed : List ℕ)
    (n : ℕ) : Except PyErr (List ℕ × List ℕ) := do
  let content_recs ← contentCandidates s recently_viewed n
  let collab ← get_collaborative_recommendations s user_id (n / 2)
  pure (content_recs, collab.map (fun p => p.1))

/-- `get_hybrid_recommendations(user_id, recently_viewed, n_recommendations)`:
gather both candidate lists, then run the interleaving merge with
`seen_movies = set(recently_viewed)` and an empty result. -/
def get_hybrid_recommendations (s : MovieRecommender) (user_id : ℕ)
    (recently_viewed : List ℕ) (n_recommendations : ℕ) : Except PyErr (List ℕ) := do
  let (content_recs, collab_recs) ← hybridCandidates s user_id recently_viewed n_recommendations
  pure (mergeLoop content_recs collab_recs n_recommendations 0 0 recently_viewed [])

/-- One row of the `movies` database table, with the columns read by the
route's popularity query. -/
structure DbMovie where
  id : ℕ
  title : String
  average_rating : ℚ
  view_count : ℕ
deriving DecidableEq

/-- Comparison modelling
`order_by(Movie.average_rating.desc(), Movie.view_count.desc())` on
index-tagged rows: descending average rating, then descending view count,
remaining ties in table order. -/
def popSortLe (a b : ℕ × DbMovie) : Bool :=
  decide (b.2.average_rating < a.2.average_rating ∨
    (a.2.average_rating = b.2.average_rating ∧
      (b.2.view_count < a.2.view_count ∨
        (a.2.view_count = b.2.view_count ∧ a.1 ≤ b.1))))

/-- The popularity ordering used by the route's cold-start query. -/
def popularitySort (movies : List DbMovie) : List DbMovie :=
  ((movies.enum).mergeSort popSortLe).map (fun p => p.2)

/-- The route `get_recommendations(user_id)` (strategy and
`exclude_watched` do not affect which ids are returned).  `recently_viewed`
is the last up-to-10 movie ids of the user's ratings; when it is empty the
route returns the ids of the top-10 movies by descending average rating
then descending view count, otherwise it calls
`get_hybrid_recommendations` with the default `n_recommendations = 10` and
keeps (in recommendation order) the ids found in the movies table. -/
def get_recommendations (s : MovieRecommender) (db_movies : List DbMovie)
    (user_id : ℕ) (user_rating_movie_ids : List ℕ) : Except PyErr (List ℕ) :=
  let recently_viewed :=
    if user_rating_movie_ids.isEmpty then []
    else user_rating_movie_ids.drop (user_rating_movie_ids.length - 10)
  if recently_viewed.isEmpty then
    .ok (((popularitySort db_movies).take 10).map (fun m => m.id))
  else do
    let recommended_ids ← get_hybrid_recommendations s user_id recently_viewed 10
    pure (recommended_ids.filter (fun mid => db_movies.any (fun m => m.id == mid)))

/-- A recommender state holds one consistent content generation: the movies
table and the similarity matrix are both present and the matrix is square
of the movie count (which is what `prepare_content_features` produces when
its two assignments complete without interleaved reads). -/
def GenConsistent (s : MovieRecommender) : Prop :=
  ∃ movies sim, s.movies_df = some movies ∧
    s.content_similarity_matrix = some sim ∧
    sim.length = movies.length ∧ ∀ r ∈ sim, r.length = movies.length


/-- Relation between (seen, result) before and after a piece of the loop
body: the result is extended only with ids that were not yet seen, the seen
set only grows, and every newly seen id is in the extended result. -/
def StepExt (seen acc seen' acc' : List ℕ) : Prop :=
  (∃ t, acc' = acc ++ t ∧ ∀ x ∈ t, x ∉ seen) ∧
    (∀ x ∈ seen, x ∈ seen') ∧ (∀ x ∈ seen', x ∈ seen ∨ x ∈ acc')

theorem stepExt_refl (seen acc : List ℕ) : StepExt seen acc seen acc :=
  ⟨⟨[], by simp, by simp⟩, fun _ hx => hx, fun _ hx => Or.inl hx⟩

theorem stepExt_trans {s a s' a' s'' a'' : List ℕ} (h1 : StepExt s a s' a')
    (h2 : StepExt s' a' s'' a'') : StepExt s a s'' a'' := by
  obtain ⟨⟨t1, ht1, ht1s⟩, hm1, hb1⟩ := h1
  obtain ⟨⟨t2, ht2, ht2s⟩, hm2, hb2⟩ := h2
  refine ⟨⟨t1 ++ t2, by simp [ht2, ht1], ?_⟩, fun x hx => hm2 x (hm1 x hx), ?_⟩
  · intro x hx
    rcases List.mem_append.1 hx with hx | hx
    · exact ht1s x hx
    · intro hs
      exact ht2s x hx (hm1 x hs)
  · intro x hx
    rcases hb2 x hx with hx' | hx'
    · rcases hb1 x hx' with hx'' | hx''
      · exact Or.inl hx''
      · exact Or.inr (by simp [ht2, hx''])
    · exact Or.inr hx'

theorem pickStep_ext (m : ℕ) (seen acc : List ℕ) :
    StepExt seen acc (pickStep m seen acc).1 (pickStep m seen acc).2 := by
  by_cases h : m ∈ seen
  · simp only [pickStep, if_pos h]
    exact stepExt_refl seen acc
  · simp only [pickStep, if_neg h]
    refine ⟨⟨[m], rfl, by simpa using h⟩, fun x hx => by simp [hx], ?_⟩
    intro x hx
    rcases List.mem_cons.1 hx with hx | hx
    · exact Or.inr (by simp [hx])
    · exact Or.inl hx

theorem mergeStep_ext (cr kr : List ℕ) (ci ki : ℕ) (seen acc : List ℕ) :
    StepExt seen acc (mergeStep cr kr ci ki seen acc).1 (mergeStep cr kr ci ki seen acc).2 := by
  unfold mergeStep
  by_cases hc : ci < cr.length <;> by_cases hk : ki < kr.length <;>
    simp only [hc, hk, if_true, if_false]
  · exact stepExt_trans (pickStep_ext _ _ _) (pickStep_ext _ _ _)
  · exact pickStep_ext _ _ _
  · exact pickStep_ext _ _ _
  · exact stepExt_refl _ _

theorem pickStep_mem_fst (m : ℕ) (seen acc : List ℕ) : m ∈ (pickStep m seen acc).1 := by
  by_cases h : m ∈ seen <;> simp [pickStep, h]

theorem mergeStep_processed_content (cr kr : List ℕ) (ci ki : ℕ) (seen acc : List ℕ)
    (hc : ci < cr.length) : cr.getD ci 0 ∈ (mergeStep cr kr ci ki seen acc).1 := by
  unfold mergeStep
  by_cases hk : ki < kr.length <;> simp only [hc, hk, if_true, if_false]
  · exact (pickStep_ext _ _ _).2.1 _ (pickStep_mem_fst _ _ _)
  · exact pickStep_mem_fst _ _ _

theorem mergeStep_processed_collab (cr kr : List ℕ) (ci ki : ℕ) (seen acc : List ℕ)
    (hk : ki < kr.length) : kr.getD ki 0 ∈ (mergeStep cr kr ci ki seen acc).1 := by
  unfold mergeStep
  by_cases hc : ci < cr.length <;> simp only [hc, hk, if_true, if_false] <;>
    exact pickStep_mem_fst _ _ _

theorem pickStep_len (m : ℕ) (seen acc : List ℕ) :
    (pickStep m seen acc).2.length ≤ acc.length + 1 := by
  by_cases h : m ∈ seen <;> simp [pickStep, h]

theorem mergeStep_len (cr kr : List ℕ) (ci ki : ℕ) (seen acc : List ℕ) :
    (mergeStep cr kr ci ki seen acc).2.length ≤ acc.length + 2 := by
  unfold mergeStep
  by_cases hc : ci < cr.length <;> by_cases hk : ki < kr.length <;>
    simp only [hc, hk, if_true, if_false]
  · exact le_trans (pickStep_len _ _ _) (by have := pickStep_len (cr.getD ci 0) seen acc; omega)
  · exact le_trans (pickStep_len _ _ _) (by omega)
  · exact le_trans (pickStep_len _ _ _) (by omega)
  · omega

theorem mergeStep_len_noCollab (cr kr : List ℕ) (ci ki : ℕ) (seen acc : List ℕ)
    (hk : ¬ ki < kr.length) : (mergeStep cr kr ci ki seen acc).2.length ≤ acc.length + 1 := by
  unfold mergeStep
  by_cases hc : ci < cr.length <;> simp only [hc, hk, if_true, if_false]
  · exact pickStep_len _ _ _
  · omega

theorem pickStep_nodup (m : ℕ) (seen acc : List ℕ) (hsub : ∀ x ∈ acc, x ∈ seen)
    (hnd : acc.Nodup) :
    (pickStep m seen acc).2.Nodup ∧ ∀ x ∈ (pickStep m seen acc).2, x ∈ (pickStep m seen acc).1 := by
  by_cases h : m ∈ seen
  · simp only [pickStep, if_pos h]
    exact ⟨hnd, hsub⟩
  · simp only [pickStep, if_neg h]
    constructor
    · simp only [List.nodup_append, List.nodup_cons]
      refine ⟨hnd, by simp, ?_⟩
      intro x hx hxm
      rw [List.mem_singleton] at hxm
      exact h (hxm ▸ hsub x hx)
    · intro x hx
      rcases List.mem_append.1 hx with hx | hx
      · exact List.mem_cons_of_mem _ (hsub x hx)
      · simp only [List.mem_singleton] at hx
        simp [hx]

theorem mergeStep_nodup (cr kr : List ℕ) (ci ki : ℕ) (seen acc : List ℕ)
    (hsub : ∀ x ∈ acc, x ∈ seen) (hnd : acc.Nodup) :
    (mergeStep cr kr ci ki seen acc).2.Nodup ∧
      ∀ x ∈ (mergeStep cr kr ci ki seen acc).2, x ∈ (mergeStep cr kr ci ki seen acc).1 := by
  unfold mergeStep
  by_cases hc : ci < cr.length <;> by_cases hk : ki < kr.length <;>
    simp only [hc, hk, if_true, if_false]
  · obtain ⟨h1, h2⟩ := pickStep_nodup (cr.getD ci 0) seen acc hsub hnd
    exact pickStep_nodup _ _ _ h2 h1
  · exact pickStep_nodup _ _ _ hsub hnd
  · exact pickStep_nodup _ _ _ hsub hnd
  · exact ⟨hnd, hsub⟩

theorem mergeLoop_sub (cr kr : List ℕ) (n : ℕ) (ci ki : ℕ) (seen acc : List ℕ) :
    ∀ x ∈ acc, x ∈ mergeLoop cr kr n ci ki seen acc := by
  induction ci, ki, seen, acc using mergeLoop.induct cr kr n with
  | case1 ci ki seen acc h ih =>
    intro x hx
    rw [mergeLoop, dif_pos h]
    apply ih
    obtain ⟨⟨t, ht, -⟩, -, -⟩ := mergeStep_ext cr kr ci ki seen acc
    rw [ht]
    exact List.mem_append_left _ hx
  | case2 ci ki seen acc h =>
    intro x hx
    rw [mergeLoop, dif_neg h]
    exact hx

theorem mergeLoop_nodup_mem (cr kr : List ℕ) (n : ℕ) (ci ki : ℕ) (seen acc : List ℕ)
    (hsub : ∀ x ∈ acc, x ∈ seen) (hnd : acc.Nodup) :
    (mergeLoop cr kr n ci ki seen acc).Nodup ∧
      ∀ x ∈ mergeLoop cr kr n ci ki seen acc, x ∈ acc ∨ x ∉ seen := by
  induction ci, ki, seen, acc using mergeLoop.induct cr kr n with
  | case1 ci ki seen acc h ih =>
    rw [mergeLoop, dif_pos h]
    obtain ⟨hnd', hsub'⟩ := mergeStep_nodup cr kr ci ki seen acc hsub hnd
    obtain ⟨hres_nd, hres_mem⟩ := ih hsub' hnd'
    refine ⟨hres_nd, ?_⟩
    intro x hx
    obtain ⟨⟨t, ht, hts⟩, hmono, hback⟩ := mergeStep_ext cr kr ci ki seen acc
    rcases hres_mem x hx with hx' | hx'
    · rw [ht] at hx'
      rcases List.mem_append.1 hx' with hx'' | hx''
      · exact Or.inl hx''
      · exact Or.inr (hts x hx'')
    · exact Or.inr (fun hs => hx' (hmono x hs))
  | case2 ci ki seen acc h =>
    rw [mergeLoop, dif_neg h]
    exact ⟨hnd, fun x hx => Or.inl hx⟩

theorem mergeLoop_length_le (cr kr : List ℕ) (n : ℕ) (ci ki : ℕ) (seen acc : List ℕ)
    (hacc : acc.length ≤ n) (hki : ki < kr.length → acc.length ≤ 2 * ki)
    (hcap : 2 * kr.length ≤ n) :
    (mergeLoop cr kr n ci ki seen acc).length ≤ n := by
  induction ci, ki, seen, acc using mergeLoop.induct cr kr n with
  | case1 ci ki seen acc h ih =>
    rw [mergeLoop, dif_pos h]
    have hlt : acc.length < n := h.1
    by_cases hk : ki < kr.length
    · have h2ki : acc.length ≤ 2 * ki := hki hk
      have hstep : (mergeStep cr kr ci ki seen acc).2.length ≤ acc.length + 2 :=
        mergeStep_len cr kr ci ki seen acc
      simp only [hk, dite_true, ite_true] at ih ⊢
      exact ih (by omega) (fun _ => by omega)
    · have hstep : (mergeStep cr kr ci ki seen acc).2.length ≤ acc.length + 1 :=
        mergeStep_len_noCollab cr kr ci ki seen acc hk
      simp only [hk, dite_false, ite_false] at ih ⊢
      exact ih (by omega) (fun hk' => hk'.elim)
  | case2 ci ki seen acc h =>
    rw [mergeLoop, dif_neg h]
    exact hacc

theorem mergeLoop_exhaust (cr kr : List ℕ) (n : ℕ) (ci ki : ℕ) (seen acc : List ℕ)
    (hshort : (mergeLoop cr kr n ci ki seen acc).length < n) :
    ∀ x, (x ∈ cr.drop ci ∨ x ∈ kr.drop ki) →
      x ∈ seen ∨ x ∈ mergeLoop cr kr n ci ki seen acc := by
  induction ci, ki, seen, acc using mergeLoop.induct cr kr n with
  | case1 ci ki seen acc h ih =>
    rw [mergeLoop, dif_pos h] at hshort ⊢
    obtain ⟨⟨t, ht, hts⟩, hmono, hback⟩ := mergeStep_ext cr kr ci ki seen acc
    have hsub2 := mergeLoop_sub cr kr n (if ci < cr.length then ci + 1 else ci)
      (if ki < kr.length then ki + 1 else ki)
      (mergeStep cr kr ci ki seen acc).1 (mergeStep cr kr ci ki seen acc).2
    -- x in new seen implies in old seen or in final result
    have hseen_case : ∀ x, x ∈ (mergeStep cr kr ci ki seen acc).1 →
        x ∈ seen ∨ x ∈ mergeLoop cr kr n (if ci < cr.length then ci + 1 else ci)
          (if ki < kr.length then ki + 1 else ki)
          (mergeStep cr kr ci ki seen acc).1 (mergeStep cr kr ci ki seen acc).2 := by
      intro x hx
      rcases hback x hx with hx' | hx'
      · exact Or.inl hx'
      · exact Or.inr (hsub2 x hx')
    intro x hx
    rcases hx with hx | hx
    · by_cases hc : ci < cr.length
      · rw [List.drop_eq_getElem_cons hc] at hx
        rcases List.mem_cons.1 hx with hx' | hx'
        · subst hx'
          have : cr.getD ci 0 ∈ (mergeStep cr kr ci ki seen acc).1 :=
            mergeStep_processed_content cr kr ci ki seen acc hc
          rw [List.getD_eq_getElem?_getD, List.getElem?_eq_getElem hc] at this
          exact hseen_case _ this
        · have := ih hshort x (Or.inl (by simpa [hc] using hx'))
          rcases this with h' | h'
          · exact hseen_case x h'
          · exact Or.inr h'
      · have := ih hshort x (Or.inl (by simpa [hc] using hx))
        rcases this with h' | h'
        · exact hseen_case x h'
        · exact Or.inr h'
    · by_cases hk : ki < kr.length
      · rw [List.drop_eq_getElem_cons hk] at hx
        rcases List.mem_cons.1 hx with hx' | hx'
        · subst hx'
          have : kr.getD ki 0 ∈ (mergeStep cr kr ci ki seen acc).1 :=
            mergeStep_processed_collab cr kr ci ki seen acc hk
          rw [List.getD_eq_getElem?_getD, List.getElem?_eq_getElem hk] at this
          exact hseen_case _ this
        · have := ih hshort x (Or.inr (by simpa [hk] using hx'))
          rcases this with h' | h'
          · exact hseen_case x h'
          · exact Or.inr h'
      · have := ih hshort x (Or.inr (by simpa [hk] using hx))
        rcases this with h' | h'
        · exact hseen_case x h'
        · exact Or.inr h'
  | case2 ci ki seen acc h =>
    rw [mergeLoop, dif_neg h] at hshort ⊢
    intro x hx
    rcases not_and_or.1 h with h' | h'
    · omega
    · rcases not_or.1 h' with ⟨h1, h2⟩
      rcases hx with hx | hx
      · rw [List.drop_eq_nil_of_le (by omega)] at hx
        cases hx
      · rw [List.drop_eq_nil_of_le (by omega)] at hx
        cases hx

theorem argsortAsc_perm (row : List ℚ) : (argsortAsc row).Perm (List.range row.length) :=
  List.mergeSort_perm _ _

theorem argsortAsc_nodup (row : List ℚ) : (argsortAsc row).Nodup :=
  (argsortAsc_perm row).symm.nodup (List.nodup_range _)

theorem argsortAsc_mem (row : List ℚ) {i : ℕ} : i ∈ argsortAsc row ↔ i < row.length := by
  rw [(argsortAsc_perm row).mem_iff, List.mem_range]

theorem argsortAsc_length (row : List ℚ) : (argsortAsc row).length = row.length := by
  have h := @List.length_mergeSort ℕ (argLeB row) (List.range row.length)
  rw [argsortAsc, h, List.length_range]

theorem argLeB_trans (row : List ℚ) : ∀ a b c, argLeB row a b = true → argLeB row b c = true →
    argLeB row a c = true := by
  intro a b c hab hbc
  simp only [argLeB, decide_eq_true_eq] at hab hbc ⊢
  rcases hab with h | ⟨h1, h2⟩ <;> rcases hbc with h' | ⟨h1', h2'⟩
  · exact Or.inl (h.trans h')
  · exact Or.inl (h1' ▸ h)
  · exact Or.inl (h1 ▸ h')
  · exact Or.inr ⟨h1.trans h1', h2.trans h2'⟩

theorem argLeB_total (row : List ℚ) : ∀ a b, (argLeB row a b || argLeB row b a) = true := by
  intro a b
  simp only [argLeB, Bool.or_eq_true, decide_eq_true_eq]
  rcases lt_trichotomy (row.getD a 0) (row.getD b 0) with h | h | h
  · exact Or.inl (Or.inl h)
  · rcases le_total a b with h' | h'
    · exact Or.inl (Or.inr ⟨h, h'⟩)
    · exact Or.inr (Or.inr ⟨h.symm, h'⟩)
  · exact Or.inr (Or.inl h)

theorem argsortAsc_sorted (row : List ℚ) :
    (argsortAsc row).Pairwise (fun a b => argLeB row a b = true) :=
  List.sorted_mergeSort (argLeB_trans row) (argLeB_total row) (List.range row.length)

theorem contentOrderIndices_sublist (row : List ℚ) (n : ℕ) :
    (contentOrderIndices row n).Sublist (argsortAsc row).reverse :=
  (List.take_sublist _ _).trans (List.drop_sublist _ _)

theorem contentOrderIndices_mem (row : List ℚ) (n : ℕ) {i : ℕ}
    (h : i ∈ contentOrderIndices row n) : i < row.length := by
  have h2 : i ∈ (argsortAsc row).reverse := (contentOrderIndices_sublist row n).mem h
  rw [List.mem_reverse] at h2
  exact (argsortAsc_mem row).1 h2

theorem contentOrderIndices_length (row : List ℚ) (n : ℕ) :
    (contentOrderIndices row n).length = min n (row.length - 1) := by
  simp [contentOrderIndices, argsortAsc_length]

/-- The index sequence actually returned by a content similarity query is
ordered by strictly descending similarity value, with equal values ordered
by strictly descending matrix row index. -/
theorem contentOrderIndices_sorted (row : List ℚ) (n : ℕ) :
    (contentOrderIndices row n).Pairwise
      (fun a b => row.getD b 0 < row.getD a 0 ∨ (row.getD a 0 = row.getD b 0 ∧ b < a)) := by
  have h1 : (argsortAsc row).reverse.Pairwise (fun a b => argLeB row b a = true) :=
    List.pairwise_reverse.2 (argsortAsc_sorted row)
  have h3 : (contentOrderIndices row n).Pairwise (fun a b => argLeB row b a = true) :=
    List.Pairwise.sublist (contentOrderIndices_sublist row n) h1
  have h4 : (contentOrderIndices row n).Nodup :=
    List.Nodup.sublist (contentOrderIndices_sublist row n)
      (List.nodup_reverse.2 (argsortAsc_nodup row))
  refine (h3.and h4).imp ?_
  intro a b hab
  obtain ⟨hR, hne⟩ := hab
  simp only [argLeB, decide_eq_true_eq] at hR
  rcases hR with h | ⟨h1', h2'⟩
  · exact Or.inl h
  · exact Or.inr ⟨h1'.symm, lt_of_le_of_ne h2' (fun heq => hne heq.symm)⟩

theorem ilocSelect_ok (movies : List MovieRow) : ∀ (l : List ℕ),
    (∀ i ∈ l, i < movies.length) →
    ∃ rows, ilocSelect movies l = some rows ∧ rows.length = l.length := by
  intro l
  induction l with
  | nil => intro _; exact ⟨[], rfl, rfl⟩
  | cons a l ih =>
    intro h
    obtain ⟨rows, hr, hl⟩ := ih (fun i hi => h i (List.mem_cons_of_mem _ hi))
    have ha : a < movies.length := h a (List.mem_cons_self _ _)
    refine ⟨movies[a] :: rows, ?_, by simp [hl]⟩
    simp [ilocSelect, List.getElem?_eq_getElem ha, hr]

theorem content_ok (s : MovieRecommender) (movies : List MovieRow) (sim : List (List ℚ))
    (hm : s.movies_df = some movies) (hs : s.content_similarity_matrix = some sim)
    (hdim : sim.length = movies.length) (hrow : ∀ r ∈ sim, r.length = movies.length)
    (movie_id n : ℕ) (hmem : movie_id ∈ movies.map (fun r => r.id)) :
    ∃ r, get_content_based_recommendations s movie_id n = .ok r ∧
      r.length = min n (movies.length - 1) := by
  have hex : ∃ x ∈ movies, (fun r : MovieRow => r.id == movie_id) x = true := by
    obtain ⟨r, hr, hid⟩ := List.mem_map.1 hmem
    exact ⟨r, hr, by simp [hid]⟩
  have hfind := List.findIdx?_eq_some_of_exists hex
  have hlt : movies.findIdx (fun r => r.id == movie_id) < movies.length :=
    List.findIdx_lt_length_of_exists hex
  have hltsim : movies.findIdx (fun r => r.id == movie_id) < sim.length := by omega
  have hrowget : sim[movies.findIdx (fun r => r.id == movie_id)]? =
      some (sim[movies.findIdx (fun r => r.id == movie_id)]) :=
    List.getElem?_eq_getElem hltsim
  have hrlen : (sim[movies.findIdx (fun r => r.id == movie_id)]).length =
      movies.length := hrow _ (List.getElem_mem hltsim)
  obtain ⟨rows, hmapm, hrowslen⟩ := ilocSelect_ok movies
    (contentOrderIndices (sim[movies.findIdx (fun r => r.id == movie_id)]) n)
    (fun i hi => by
      have h2 := contentOrderIndices_mem _ n hi
      rw [hrlen] at h2
      exact h2)
  refine ⟨rows.map (fun r => r.id), ?_, ?_⟩
  · simp only [get_content_based_recommendations, hm, hs, hfind, hrowget, hmapm]
  · rw [List.length_map, hrowslen, contentOrderIndices_length, hrlen]

theorem content_err (s : MovieRecommender) (movies : List MovieRow)
    (hm : s.movies_df = some movies) (movie_id n : ℕ)
    (hmem : movie_id ∉ movies.map (fun r => r.id)) :
    get_content_based_recommendations s movie_id n = .error .indexError := by
  have hnone : movies.findIdx? (fun r => r.id == movie_id) = none := by
    rw [List.findIdx?_eq_none_iff]
    intro x hx
    simp only [beq_eq_false_iff_ne, ne_eq]
    intro h
    exact hmem (List.mem_map.2 ⟨x, hx, h⟩)
  simp [get_content_based_recommendations, hm, hnone]

theorem ratingSortLe_trans : ∀ a b c, ratingSortLe a b = true → ratingSortLe b c = true →
    ratingSortLe a c = true := by
  intro a b c hab hbc
  simp only [ratingSortLe, decide_eq_true_eq] at hab hbc ⊢
  rcases hab with h | ⟨h1, h2⟩ <;> rcases hbc with h' | ⟨h1', h2'⟩
  · exact Or.inl (h'.trans h)
  · exact Or.inl (h1' ▸ h)
  · exact Or.inl (h1 ▸ h')
  · exact Or.inr ⟨h1.trans h1', h2.trans h2'⟩

theorem ratingSortLe_total : ∀ a b, (ratingSortLe a b || ratingSortLe b a) = true := by
  intro a b
  simp only [ratingSortLe, Bool.or_eq_true, decide_eq_true_eq]
  rcases lt_trichotomy (a.2.2 : ℚ) b.2.2 with h | h | h
  · exact Or.inr (Or.inl h)
  · rcases le_total a.1 b.1 with h' | h'
    · exact Or.inl (Or.inr ⟨h, h'⟩)
    · exact Or.inr (Or.inr ⟨h.symm, h'⟩)
  · exact Or.inl (Or.inl h)

/-- The prediction list that `get_collaborative_recommendations` sorts is
ordered by strictly descending predicted rating, equal predictions ordered
by ascending position in the unrated-movie list (stable sort). -/
theorem collabEnumSorted (l : List (ℕ × ℚ)) :
    ((l.enum).mergeSort ratingSortLe).Pairwise
      (fun a b => b.2.2 < a.2.2 ∨ (a.2.2 = b.2.2 ∧ a.1 ≤ b.1)) := by
  have h := List.sorted_mergeSort ratingSortLe_trans ratingSortLe_total (l.enum)
  exact h.imp (fun hab => by simpa [ratingSortLe, decide_eq_true_eq] using hab)

theorem pySortByRatingDesc_sorted (l : List (ℕ × ℚ)) :
    (pySortByRatingDesc l).Pairwise (fun p q => q.2 ≤ p.2) := by
  refine List.Pairwise.map _ ?_ (collabEnumSorted l)
  intro a b hab
  rcases hab with h | ⟨h1, -⟩
  · exact le_of_lt h
  · exact le_of_eq h1.symm

theorem popSortLe_trans : ∀ a b c, popSortLe a b = true → popSortLe b c = true →
    popSortLe a c = true := by
  intro a b c hab hbc
  simp only [popSortLe, decide_eq_true_eq] at hab hbc ⊢
  rcases hab with h | ⟨h1, h2⟩ <;> rcases hbc with h' | ⟨h1', h2'⟩
  · exact Or.inl (h'.trans h)
  · exact Or.inl (h1' ▸ h)
  · exact Or.inl (h1 ▸ h')
  · refine Or.inr ⟨h1.trans h1', ?_⟩
    rcases h2 with h2 | ⟨h2a, h2b⟩ <;> rcases h2' with h2' | ⟨h2a', h2b'⟩
    · exact Or.inl (h2'.trans h2)
    · exact Or.inl (h2a' ▸ h2)
    · exact Or.inl (h2a ▸ h2')
    · exact Or.inr ⟨h2a.trans h2a', h2b.trans h2b'⟩

theorem popSortLe_total : ∀ a b, (popSortLe a b || popSortLe b a) = true := by
  intro a b
  simp only [popSortLe, Bool.or_eq_true, decide_eq_true_eq]
  rcases lt_trichotomy a.2.average_rating b.2.average_rating with h | h | h
  · exact Or.inr (Or.inl h)
  · rcases lt_trichotomy a.2.view_count b.2.view_count with h' | h' | h'
    · exact Or.inr (Or.inr ⟨h.symm, Or.inl h'⟩)
    · rcases le_total a.1 b.1 with h'' | h''
      · exact Or.inl (Or.inr ⟨h, Or.inr ⟨h', h''⟩⟩)
      · exact Or.inr (Or.inr ⟨h.symm, Or.inr ⟨h'.symm, h''⟩⟩)
    · exact Or.inl (Or.inr ⟨h, Or.inl h'⟩)
  · exact Or.inl (Or.inl h)

theorem popularitySort_perm (movies : List DbMovie) : (popularitySort movies).Perm movies := by
  have h := (List.mergeSort_perm (movies.enum) popSortLe).map (fun p : ℕ × DbMovie => p.2)
  rw [popularitySort]
  have h2 : (movies.enum).map (fun p : ℕ × DbMovie => p.2) = movies := List.enum_map_snd movies
  rw [h2] at h
  exact h

theorem popularitySort_sorted (movies : List DbMovie) :
    (popularitySort movies).Pairwise (fun a b => b.average_rating < a.average_rating ∨
      (a.average_rating = b.average_rating ∧ b.view_count ≤ a.view_count)) := by
  refine List.Pairwise.map _ ?_
    (List.sorted_mergeSort popSortLe_trans popSortLe_total (movies.enum))
  intro a b hab
  simp only [popSortLe, decide_eq_true_eq] at hab
  rcases hab with h | ⟨h1, h2⟩
  · exact Or.inl h
  · refine Or.inr ⟨h1, ?_⟩
    rcases h2 with h2 | ⟨h2a, -⟩
    · exact le_of_lt h2
    · exact le_of_eq h2a.symm

theorem collab_err_of_no_ratings (s : MovieRecommender) (u n : ℕ)
    (h : s.ratings_df = none) :
    ∃ e, get_collaborative_recommendations s u n = .error e := by
  unfold get_collaborative_recommendations
  cases hm : s.movies_df with
  | none => exact ⟨.typeError, rfl⟩
  | some movies =>
    rw [h]
    exact ⟨.attributeError, rfl⟩

theorem collab_ok_len (s : MovieRecommender) (u n : ℕ) (r : List (ℕ × ℚ))
    (h : get_collaborative_recommendations s u n = .ok r) : r.length ≤ n := by
  unfold get_collaborative_recommendations at h
  cases hm : s.movies_df with
  | none => rw [hm] at h; cases h
  | some movies =>
    rw [hm] at h
    cases hr : s.ratings_df with
    | none => rw [hr] at h; cases h
    | some ratings =>
      rw [hr] at h
      cases hc : s.collaborative_model with
      | none =>
        rw [hc] at h
        dsimp only at h
        split at h
        · cases h
          simp
        · cases h
      | some est =>
        rw [hc] at h
        dsimp only at h
        cases h
        exact List.length_take_le _ _

theorem collab_ok_sorted (s : MovieRecommender) (u n : ℕ) (r : List (ℕ × ℚ))
    (h : get_collaborative_recommendations s u n = .ok r) :
    r.Pairwise (fun p q => q.2 ≤ p.2) := by
  unfold get_collaborative_recommendations at h
  cases hm : s.movies_df with
  | none => rw [hm] at h; cases h
  | some movies =>
    rw [hm] at h
    cases hr : s.ratings_df with
    | none => rw [hr] at h; cases h
    | some ratings =>
      rw [hr] at h
      cases hc : s.collaborative_model with
      | none =>
        rw [hc] at h
        dsimp only at h
        split at h
        · cases h
          simp
        · cases h
      | some est =>
        rw [hc] at h
        dsimp only at h
        cases h
        exact List.Pairwise.sublist (List.take_sublist _ _) (pySortByRatingDesc_sorted _)

theorem hybrid_of_candidates (s : MovieRecommender) (u : ℕ) (rv : List ℕ) (n : ℕ)
    (cr kr : List ℕ) (h : hybridCandidates s u rv n = .ok (cr, kr)) :
    get_hybrid_recommendations s u rv n = .ok (mergeLoop cr kr n 0 0 rv []) := by
  unfold get_hybrid_recommendations
  rw [h]
  rfl

theorem hybridCandidates_inv (s : MovieRecommender) (u : ℕ) (rv : List ℕ) (n : ℕ)
    (cr kr : List ℕ) (h : hybridCandidates s u rv n = .ok (cr, kr)) :
    ∃ collab, get_collaborative_recommendations s u (n / 2) = .ok collab ∧
      kr = collab.map (fun p => p.1) := by
  unfold hybridCandidates at h
  cases hc : contentCandidates s rv n with
  | error e => rw [hc] at h; cases h
  | ok content =>
    rw [hc] at h
    cases hk : get_collaborative_recommendations s u (n / 2) with
    | error e => rw [hk] at h; cases h
    | ok collab =>
      rw [hk] at h
      cases h
      exact ⟨collab, rfl, rfl⟩

/-! ### Concrete engine states used by individual claims -/

/-- Two movies with identical content features: every entry of the cosine
similarity matrix is 1 (identical TF-IDF vectors). -/
def c5State : MovieRecommender :=
  { movies_df := some [⟨1, "a", "g", "d", "c", "s"⟩, ⟨2, "a", "g", "d", "c", "s"⟩]
    content_similarity_matrix := some [[1, 1], [1, 1]]
    collaborative_model := none
    ratings_df := none }

def c7Movies : List MovieRow :=
  [⟨1, "", "", "", "", ""⟩, ⟨2, "", "", "", "", ""⟩]

def c7State : MovieRecommender :=
  { movies_df := some c7Movies
    content_similarity_matrix := some [[1, 1/2], [1/2, 1]]
    collaborative_model := none
    ratings_df := none }

def c10Movies : List MovieRow :=
  [⟨1, "", "", "", "", ""⟩, ⟨2, "", "", "", "", ""⟩, ⟨3, "", "", "", "", ""⟩]

def c10State : MovieRecommender :=
  { movies_df := some c10Movies
    content_similarity_matrix := some [[1, 1/2, 0], [1/2, 1, 0], [0, 0, 1]]
    collaborative_model := none
    ratings_df := none }

def c9Movie1 : MovieRow := ⟨1, "", "", "", "", ""⟩

def c9Movie2 : MovieRow := ⟨2, "", "", "", "", ""⟩

/-- A one-movie generation built by the engine's own methods. -/
def c9State : MovieRecommender :=
  prepare_content_features initRecommender [c9Movie1] [[1]]

/-! ### Claims -/

unseal List.merge List.mergeSort in
/-- C5 (code bug): with two movies of identical content features, the tie at
similarity 1.0 puts the other movie first in the descending argsort, so
dropping the first entry keeps the queried movie itself: the similarity
query for movie 1 returns movie 1.  The spec's self-exclusion invariant is
violated. -/
theorem c5_self_excluded_violated :
    get_content_based_recommendations c5State 1 1 = .ok [1] ∧ 1 ∈ ([1] : List ℕ) := by
  constructor
  · rfl
  · simp

/-- C7: on a consistent prepared generation, the similarity query succeeds
exactly when the queried movie id is in the movies table, and the failure
on an absent id is the engine's not-found signal (the `IndexError` from
`.index[0]` on an empty selection). -/
theorem c7_not_found_iff (s : MovieRecommender) (movies : List MovieRow)
    (sim : List (List ℚ)) (hm : s.movies_df = some movies)
    (hs : s.content_similarity_matrix = some sim)
    (hdim : sim.length = movies.length)
    (hrow : ∀ r ∈ sim, r.length = movies.length) (movie_id n : ℕ) :
    ((∃ r, get_content_based_recommendations s movie_id n = .ok r) ↔
      movie_id ∈ movies.map (fun r => r.id)) ∧
    (movie_id ∉ movies.map (fun r => r.id) →
      get_content_based_recommendations s movie_id n = .error .indexError) := by
  constructor
  · constructor
    · rintro ⟨r, hr⟩
      by_contra hmem
      rw [content_err s movies hm movie_id n hmem] at hr
      cases hr
    · intro hmem
      obtain ⟨r, hr, -⟩ := content_ok s movies sim hm hs hdim hrow movie_id n hmem
      exact ⟨r, hr⟩
  · intro hmem
    exact content_err s movies hm movie_id n hmem

unseal List.merge List.mergeSort in
/-- C7 witness: the iff evaluated on a concrete two-movie generation for a
present id and an absent id. -/
theorem c7_witness :
    (((∃ r, get_content_based_recommendations c7State 1 1 = .ok r) ↔
        1 ∈ c7Movies.map (fun r => r.id)) ∧
      (1 ∉ c7Movies.map (fun r => r.id) →
        get_content_based_recommendations c7State 1 1 = .error .indexError)) ∧
    (((∃ r, get_content_based_recommendations c7State 9 1 = .ok r) ↔
        9 ∈ c7Movies.map (fun r => r.id)) ∧
      (9 ∉ c7Movies.map (fun r => r.id) →
        get_content_based_recommendations c7State 9 1 = .error .indexError)) :=
  ⟨c7_not_found_iff c7State c7Movies [[1, 1/2], [1/2, 1]] rfl rfl (by decide)
      (by decide) 1 1,
    c7_not_found_iff c7State c7Movies [[1, 1/2], [1/2, 1]] rfl rfl (by decide)
      (by decide) 9 1⟩

/-- C10: on a consistent prepared generation of `N` movies, a similarity
query for a present movie id always succeeds and returns exactly
`min n (N - 1)` ids — the whole similarity-sorted row apart from one
dropped entry, regardless of how small the similarity values are. -/
theorem c10_result_length (s : MovieRecommender) (movies : List MovieRow)
    (sim : List (List ℚ)) (hm : s.movies_df = some movies)
    (hs : s.content_similarity_matrix = some sim)
    (hdim : sim.length = movies.length)
    (hrow : ∀ r ∈ sim, r.length = movies.length) (movie_id n : ℕ)
    (hmem : movie_id ∈ movies.map (fun r => r.id)) :
    ∃ r, get_content_based_recommendations s movie_id n = .ok r ∧
      r.length = min n (movies.length - 1) :=
  content_ok s movies sim hm hs hdim hrow movie_id n hmem

unseal List.merge List.mergeSort in
/-- C10 witness: a three-movie corpus, queried with `n = 5`, yields exactly
`min 5 2 = 2` ids, including the zero-similarity movie. -/
theorem c10_witness :
    ∃ r, get_content_based_recommendations c10State 1 5 = .ok r ∧
      r.length = min 5 (c10Movies.length - 1) :=
  c10_result_length c10State c10Movies [[1, 1/2, 0], [1/2, 1, 0], [0, 0, 1]]
    rfl rfl (by decide) (by decide) 1 5 (by decide)

/-- C8 counterexample: training on an empty rating list does not return any
model at all — `pd.DataFrame([])` has no columns, so the column selection
raises `KeyError` — refuting the claim that it yields a model marked
untrained. -/
theorem c8_counterexample :
    train_collaborative_model (fun _ _ _ => 0) initRecommender [] = .error .keyError := rfl

/-- C8 as amended: training with zero ratings raises (`KeyError`) instead of
producing a marked-untrained model; a prediction against the never-trained
model of a fresh engine raises (`AttributeError` from surprise's unfitted
SVD) rather than returning a fabricated value; and any training call that
does return produces a fitted model. -/
theorem c8_empty_training_raises :
    (∀ (svdFit : List RatingRow → ℕ → ℕ → ℚ) (s : MovieRecommender),
      train_collaborative_model svdFit s [] = .error .keyError) ∧
    (∀ u m, predictEst initRecommender u m = .error .attributeError) ∧
    (∀ (svdFit : List RatingRow → ℕ → ℕ → ℚ) (s : MovieRecommender)
      (ratings : List RatingRow) (s' : MovieRecommender),
      train_collaborative_model svdFit s ratings = .ok s' →
        s'.collaborative_model.isSome = true) := by
  refine ⟨fun _ _ => rfl, fun _ _ => rfl, ?_⟩
  intro svdFit s ratings s' h
  unfold train_collaborative_model at h
  split at h
  · cases h
  · cases h
    simp

/-- C8 witness: the amended statement applied at concrete inputs. -/
theorem c8_witness :
    train_collaborative_model (fun _ _ _ => 0) initRecommender [] = .error .keyError ∧
    predictEst initRecommender 3 4 = .error .attributeError ∧
    ({ movies_df := none, content_similarity_matrix := none,
        collaborative_model := some ((fun _ _ _ => (1 : ℚ)) ([⟨1, 1, 1⟩] : List RatingRow)),
        ratings_df := none } : MovieRecommender).collaborative_model.isSome = true :=
  ⟨c8_empty_training_raises.1 (fun _ _ _ => 0) initRecommender,
    c8_empty_training_raises.2.1 3 4,
    c8_empty_training_raises.2.2 (fun _ _ _ => 1) initRecommender ([⟨1, 1, 1⟩] : List RatingRow) _ rfl⟩

/-- C9 counterexample: `prepare_content_features` publishes its generation
through two separate attribute assignments on the shared module-level
instance, not one atomic pointer swap.  After the first assignment of a
retrain that grows the corpus from one movie to two, the observable state
is inconsistent — the movies table has two rows while the similarity
matrix is still 1×1 — and a read for the new movie raises `IndexError`. -/
theorem c9_counterexample :
    GenConsistent c9State ∧
    ¬ GenConsistent (prepareSetMovies c9State [c9Movie1, c9Movie2]) ∧
    get_content_based_recommendations (prepareSetMovies c9State [c9Movie1, c9Movie2]) 2 1 =
      .error .indexError := by
  refine ⟨⟨[c9Movie1], [[1]], rfl, rfl, rfl, by simp⟩, ?_, by rfl⟩
  rintro ⟨movies, sim, h1, h2, h3, h4⟩
  have hmov : movies = [c9Movie1, c9Movie2] := by
    have : some [c9Movie1, c9Movie2] = some movies := h1
    exact (Option.some.inj this).symm
  have hsim : sim = [[1]] := by
    have : some [[(1 : ℚ)]] = some sim := h2
    exact (Option.some.inj this).symm
  rw [hmov, hsim] at h3
  simp at h3

/-- C9 as amended: a read interleaved between the two attribute assignments
of a retrain that changes the corpus size always observes an inconsistent
movies-table/matrix pair — there is no atomic generation swap. -/
theorem c9_no_atomic_swap (s : MovieRecommender) (old newM : List MovieRow)
    (hold : s.movies_df = some old) (hcons : GenConsistent s)
    (hne : newM.length ≠ old.length) :
    ¬ GenConsistent (prepareSetMovies s newM) := by
  rintro ⟨movies, sim, h1, h2, h3, h4⟩
  obtain ⟨om, osim, ho1, ho2, ho3, ho4⟩ := hcons
  have hmov : movies = newM := by
    have : some newM = some movies := h1
    exact (Option.some.inj this).symm
  have hsim : s.content_similarity_matrix = some sim := h2
  rw [ho2] at hsim
  have hosim : osim = sim := Option.some.inj hsim
  have hom : om = old := by
    rw [hold] at ho1
    exact (Option.some.inj ho1).symm
  rw [hmov] at h3
  rw [hosim, hom] at ho3
  omega

/-- C9 witness: the amended statement at the concrete one-movie generation
retrained with a two-movie corpus. -/
theorem c9_witness : ¬ GenConsistent (prepareSetMovies c9State [c9Movie1, c9Movie2]) :=
  c9_no_atomic_swap c9State [c9Movie1] [c9Movie1, c9Movie2] rfl
    ⟨[c9Movie1], [[1]], rfl, rfl, rfl, by simp⟩ (by decide)

/-- The rational 1/2, given in normalised form so that comparisons reduce by
kernel computation. -/
def ratHalf : ℚ := ⟨1, 2, by decide, by decide⟩

/-- The rational 9/10 in normalised form. -/
def rat9d10 : ℚ := ⟨9, 10, by decide, by decide⟩

/-- The rational 4/5 in normalised form. -/
def rat4d5 : ℚ := ⟨4, 5, by decide, by decide⟩

/-- The rational 7/10 in normalised form. -/
def rat7d10 : ℚ := ⟨7, 10, by decide, by decide⟩

/-- The rational 3/5 in normalised form. -/
def rat3d5 : ℚ := ⟨3, 5, by decide, by decide⟩

/-- C1 (code bug): `get_collaborative_recommendations` reads
`self.ratings_df`, an attribute that no method of the class ever assigns,
and `get_hybrid_recommendations` wraps nothing in try/except.  On every
state whose `ratings_df` attribute is unset — which includes every state
reachable through `__init__`, `prepare_content_features` and
`train_collaborative_model`, however thoroughly the content features were
prepared — every hybrid call raises instead of degrading. -/
theorem c1_hybrid_always_raises (s : MovieRecommender) (u : ℕ) (rv : List ℕ) (n : ℕ)
    (h : s.ratings_df = none) :
    ∃ e, get_hybrid_recommendations s u rv n = .error e := by
  cases hc : hybridCandidates s u rv n with
  | error e =>
    refine ⟨e, ?_⟩
    unfold get_hybrid_recommendations
    rw [hc]
    rfl
  | ok p =>
    obtain ⟨cr, kr⟩ := p
    obtain ⟨collab, hcol, -⟩ := hybridCandidates_inv s u rv n cr kr hc
    obtain ⟨e, he⟩ := collab_err_of_no_ratings s u (n / 2) h
    rw [hcol] at he
    cases he

/-- C1 witness: a freshly constructed engine whose content features were
prepared still raises on a hybrid call. -/
theorem c1_witness :
    ∃ e, get_hybrid_recommendations
      (prepare_content_features initRecommender [⟨1, "", "", "", "", ""⟩] [[1]])
      1 [] 10 = .error e :=
  c1_hybrid_always_raises
    (prepare_content_features initRecommender [⟨1, "", "", "", "", ""⟩] [[1]]) 1 [] 10 rfl

/-- C2: whenever a hybrid call returns a list, the merge loop's
`seen_movies` bookkeeping guarantees the list has no duplicate ids and no
id from `recently_viewed`. -/
theorem c2_no_dups_no_leakage (s : MovieRecommender) (u : ℕ) (rv : List ℕ) (n : ℕ)
    (r : List ℕ) (h : get_hybrid_recommendations s u rv n = .ok r) :
    r.Nodup ∧ ∀ x ∈ r, x ∉ rv := by
  cases hc : hybridCandidates s u rv n with
  | error e =>
    unfold get_hybrid_recommendations at h
    rw [hc] at h
    cases h
  | ok p =>
    obtain ⟨cr, kr⟩ := p
    have heq := hybrid_of_candidates s u rv n cr kr hc
    rw [heq] at h
    cases h
    obtain ⟨hnd, hmem⟩ := mergeLoop_nodup_mem cr kr n 0 0 rv []
      (by simp) List.nodup_nil
    refine ⟨hnd, ?_⟩
    intro x hx
    rcases hmem x hx with h' | h'
    · exact absurd h' (List.not_mem_nil x)
    · exact h'

def c2Movies : List MovieRow := [⟨1, "", "", "", "", ""⟩, ⟨2, "", "", "", "", ""⟩]

def c2State : MovieRecommender :=
  { movies_df := some c2Movies
    content_similarity_matrix := some [[1, ratHalf], [ratHalf, 1]]
    collaborative_model := some (fun _ m => m)
    ratings_df := some [] }

set_option maxRecDepth 8000 in
unseal List.merge List.mergeSort in
/-- C2 witness: a concrete hybrid call that returns a list, with the
conclusion evaluated. -/
theorem c2_witness : ([2] : List ℕ).Nodup ∧ ∀ x ∈ ([2] : List ℕ), x ∉ ([1] : List ℕ) :=
  c2_no_dups_no_leakage c2State 7 [1] 2 [2] (by
    have hc : hybridCandidates c2State 7 [1] 2 = .ok ([2], [2]) := by rfl
    rw [hybrid_of_candidates c2State 7 [1] 2 [2] [2] hc]
    simp [mergeLoop, mergeStep, pickStep])

/-- C3 as amended: whenever a hybrid call returns a list it has at most `n`
entries (the collaborative list is capped at `n // 2`, which prevents the
double-append iteration from overshooting), and it has exactly `n` entries
whenever the content and collaborative candidate lists themselves contain
at least `n` distinct eligible ids.  No fallback pool exists inside
`get_hybrid_recommendations`, so candidates beyond those two lists cannot
contribute. -/
theorem c3_length_bound (s : MovieRecommender) (u : ℕ) (rv : List ℕ) (n : ℕ)
    (cr kr : List ℕ) (r : List ℕ)
    (hc : hybridCandidates s u rv n = .ok (cr, kr))
    (h : get_hybrid_recommendations s u rv n = .ok r) :
    r.length ≤ n ∧
      (n ≤ (((cr ++ kr).filter (fun x => decide (x ∉ rv))).dedup).length →
        r.length = n) := by
  have heq := hybrid_of_candidates s u rv n cr kr hc
  rw [heq] at h
  have hr : r = mergeLoop cr kr n 0 0 rv [] := (Except.ok.inj h).symm
  subst hr
  obtain ⟨collab, hcol, hkr⟩ := hybridCandidates_inv s u rv n cr kr hc
  have hklen : kr.length ≤ n / 2 := by
    rw [hkr, List.length_map]
    exact collab_ok_len s u (n / 2) collab hcol
  have hcap : 2 * kr.length ≤ n := by omega
  have hle : (mergeLoop cr kr n 0 0 rv []).length ≤ n :=
    mergeLoop_length_le cr kr n 0 0 rv [] (by simp) (fun _ => by simp) hcap
  refine ⟨hle, ?_⟩
  intro hcount
  by_contra hne
  have hshort : (mergeLoop cr kr n 0 0 rv []).length < n := lt_of_le_of_ne hle hne
  have hcover := mergeLoop_exhaust cr kr n 0 0 rv [] hshort
  set D := ((cr ++ kr).filter (fun x => decide (x ∉ rv))).dedup with hD
  have hDnodup : D.Nodup := List.nodup_dedup _
  have hDsub : ∀ x ∈ D, x ∈ mergeLoop cr kr n 0 0 rv [] := by
    intro x hx
    rw [hD, List.mem_dedup, List.mem_filter] at hx
    obtain ⟨hx1, hx2⟩ := hx
    have hx2' : x ∉ rv := of_decide_eq_true hx2
    have := hcover x (by
      rcases List.mem_append.1 hx1 with h' | h'
      · exact Or.inl (by simpa using h')
      · exact Or.inr (by simpa using h'))
    rcases this with h' | h'
    · exact absurd h' hx2'
    · exact h'
  have hcard : D.length ≤ (mergeLoop cr kr n 0 0 rv []).length := by
    have h1 : D.toFinset ⊆ (mergeLoop cr kr n 0 0 rv []).toFinset := by
      intro x hx
      rw [List.mem_toFinset] at hx ⊢
      exact hDsub x hx
    have h2 : D.toFinset.card = D.length := by
      rw [List.card_toFinset, hDnodup.dedup]
    have h3 := List.toFinset_card_le (mergeLoop cr kr n 0 0 rv [])
    have h4 := Finset.card_le_card h1
    omega
  omega

def c3Movies : List MovieRow :=
  [⟨1, "", "", "", "", ""⟩, ⟨2, "", "", "", "", ""⟩, ⟨3, "", "", "", "", ""⟩,
    ⟨4, "", "", "", "", ""⟩, ⟨5, "", "", "", "", ""⟩, ⟨6, "", "", "", "", ""⟩]

def c3State : MovieRecommender :=
  { movies_df := some c3Movies
    content_similarity_matrix := some
      [[1, rat9d10, rat4d5, rat7d10, rat3d5, ratHalf],
        [rat9d10, 1, 0, 0, 0, 0],
        [rat4d5, 0, 1, 0, 0, 0],
        [rat7d10, 0, 0, 1, 0, 0],
        [rat3d5, 0, 0, 0, 1, 0],
        [ratHalf, 0, 0, 0, 0, 1]]
    collaborative_model := some (fun _ m => m)
    ratings_df := some [] }

set_option maxRecDepth 8000 in
unseal List.merge List.mergeSort in
/-- C3 counterexample: a six-movie corpus, `recently_viewed = [1]`, `n = 5`.
The corpus holds five eligible movie ids, so the claim (which counts the
fallback pool) demands a five-element result, but the call returns only
four elements: no fallback filling exists in `get_hybrid_recommendations`. -/
theorem c3_counterexample :
    get_hybrid_recommendations c3State 7 [1] 5 = .ok [2, 6, 3, 5] ∧
    5 ≤ (((c3Movies.map (fun r => r.id)).filter
      (fun x => decide (x ∉ ([1] : List ℕ)))).dedup).length ∧
    ([2, 6, 3, 5] : List ℕ).length ≠ 5 := by
  refine ⟨?_, by decide, by decide⟩
  have hc : hybridCandidates c3State 7 [1] 5 = .ok ([2, 3], [6, 5]) := by rfl
  rw [hybrid_of_candidates c3State 7 [1] 5 [2, 3] [6, 5] hc]
  simp [mergeLoop, mergeStep, pickStep]

set_option maxRecDepth 8000 in
unseal List.merge List.mergeSort in
/-- C3 witness: the amended bound applied at a concrete call. -/
theorem c3_witness :
    ([2, 6, 3, 5] : List ℕ).length ≤ 5 ∧
      (5 ≤ ((([2, 3] ++ [6, 5] : List ℕ).filter
          (fun x => decide (x ∉ ([1] : List ℕ)))).dedup).length →
        ([2, 6, 3, 5] : List ℕ).length = 5) :=
  c3_length_bound c3State 7 [1] 5 [2, 3] [6, 5] [2, 6, 3, 5] (by rfl) (by
    have hc : hybridCandidates c3State 7 [1] 5 = .ok ([2, 3], [6, 5]) := by rfl
    rw [hybrid_of_candidates c3State 7 [1] 5 [2, 3] [6, 5] hc]
    simp [mergeLoop, mergeStep, pickStep])

def c4Movies : List MovieRow :=
  [⟨1, "", "", "", "", ""⟩, ⟨2, "", "", "", "", ""⟩, ⟨3, "", "", "", "", ""⟩,
    ⟨4, "", "", "", "", ""⟩]

def c4State : MovieRecommender :=
  { movies_df := some c4Movies
    content_similarity_matrix := some
      [[1, 0, 0, 0], [0, 1, 0, 0], [0, 0, 1, 0], [0, 0, 0, 1]]
    collaborative_model := some (fun _ m => m)
    ratings_df := some [] }

set_option maxRecDepth 8000 in
unseal List.merge List.mergeSort in
/-- C4 counterexample: a hybrid call with `recently_viewed = []` performs no
popularity fallback at all: it returns only the eligible collaborative
candidates (at most `n // 2` of them), here two ids out of a four-movie
corpus, instead of the claimed top-4 popularity-ordered list (which would
have `min 4 4 = 4` entries whatever the popularity order is). -/
theorem c4_counterexample :
    get_hybrid_recommendations c4State 7 [] 4 = .ok [4, 3] ∧
    c4Movies.length = 4 ∧ ([4, 3] : List ℕ).length ≠ min 4 c4Movies.length := by
  refine ⟨?_, by decide, by decide⟩
  have hc : hybridCandidates c4State 7 [] 4 = .ok ([], [4, 3]) := by rfl
  rw [hybrid_of_candidates c4State 7 [] 4 [] [4, 3] hc]
  simp [mergeLoop, mergeStep, pickStep]

/-- C4 as amended: the popularity fallback exists only at the route level.
`get_recommendations` for a user with no ratings answers from the movies
table alone: it returns the ids of the first 10 movies of a
popularity-sorted permutation of the table (descending average rating,
then descending view count), never consulting the engine.  Inside
`get_hybrid_recommendations` exhausted candidate lists are returned short,
with no popularity filling (see the C4 counterexample). -/
theorem c4_route_cold_start (s : MovieRecommender) (db_movies : List DbMovie) (u : ℕ) :
    ∃ p : List DbMovie, p.Perm db_movies ∧
      p.Pairwise (fun a b => b.average_rating < a.average_rating ∨
        (a.average_rating = b.average_rating ∧ b.view_count ≤ a.view_count)) ∧
      get_recommendations s db_movies u [] = .ok ((p.take 10).map (fun m => m.id)) :=
  ⟨popularitySort db_movies, popularitySort_perm db_movies,
    popularitySort_sorted db_movies, rfl⟩

def c6Movies : List MovieRow :=
  [⟨1, "", "", "", "", ""⟩, ⟨2, "", "", "", "", ""⟩, ⟨3, "", "", "", "", ""⟩]

/-- Three movies; movie 2 and movie 3 are equally similar to movie 1. -/
def c6State : MovieRecommender :=
  { movies_df := some c6Movies
    content_similarity_matrix := some
      [[1, ratHalf, ratHalf], [ratHalf, 1, 0], [ratHalf, 0, 1]]
    collaborative_model := none
    ratings_df := none }

/-- The similarity of each movie id to movie 1 in `c6State` (the first row
of its matrix, keyed by id). -/
def c6SimTo1 : ℕ → ℚ := fun i =>
  if i = 1 then 1 else if i = 2 then ratHalf else if i = 3 then ratHalf else 0

/-- Movies stored in table order `[3, 2]`, a trained model predicting the
same rating for every movie, and an empty rating history. -/
def c6StateB : MovieRecommender :=
  { movies_df := some [⟨3, "", "", "", "", ""⟩, ⟨2, "", "", "", "", ""⟩]
    content_similarity_matrix := some [[1, 0], [0, 1]]
    collaborative_model := some (fun _ _ => 4)
    ratings_df := some [] }

set_option maxRecDepth 8000 in
unseal List.merge List.mergeSort in
/-- C6 counterexample: ties are not broken by ascending movie id.  The
content query for movie 1 returns `[3, 2]` although movies 2 and 3 have
equal similarity (the code's tie order is descending matrix row position),
and the collaborative query returns `[(3, 4), (2, 4)]` although both
predictions are equal (the code's tie order is the movies-table order). -/
theorem c6_counterexample :
    (get_content_based_recommendations c6State 1 2 = .ok [3, 2] ∧
      ¬ ([3, 2] : List ℕ).Pairwise (fun a b =>
        c6SimTo1 b < c6SimTo1 a ∨ (c6SimTo1 a = c6SimTo1 b ∧ a < b))) ∧
    (get_collaborative_recommendations c6StateB 7 2 = .ok [(3, 4), (2, 4)] ∧
      ¬ ([(3, 4), (2, 4)] : List (ℕ × ℚ)).Pairwise (fun p q =>
        q.2 < p.2 ∨ (p.2 = q.2 ∧ p.1 < q.1))) := by
  refine ⟨⟨by rfl, by decide⟩, ⟨by rfl, by decide⟩⟩

/-- C6 as amended: against one fixed generation both queries are
deterministic (they are functions of the generation), ordered by descending
score; but content ties are ordered by descending matrix row position and
collaborative ties by ascending position in the unrated-movie list (stable
sort over the movies-table order) — not by ascending movie id. -/
theorem c6_order_amended :
    (∀ (row : List ℚ) (n : ℕ), (contentOrderIndices row n).Pairwise
      (fun a b => row.getD b 0 < row.getD a 0 ∨ (row.getD a 0 = row.getD b 0 ∧ b < a))) ∧
    (∀ l : List (ℕ × ℚ), ((l.enum).mergeSort ratingSortLe).Pairwise
      (fun a b => b.2.2 < a.2.2 ∨ (a.2.2 = b.2.2 ∧ a.1 ≤ b.1))) ∧
    (∀ l : List (ℕ × ℚ), (pySortByRatingDesc l).Pairwise (fun p q => q.2 ≤ p.2)) :=
  ⟨contentOrderIndices_sorted, collabEnumSorted, pySortByRatingDesc_sorted⟩
